import Mathlib

/-!
Shallow embedding of the SEACE tender-cache subsystem of the Hola-Doc
repository (src/engine/seace_db.py, src/engine/seace_exports.py,
src/engine/seace_ocds.py, src/engine/seace_scraper.py), together with
proofs settling the specification claims about it.

Modelling conventions:
* Python dictionaries carrying tender data (`proceso` dicts produced by
  `ProcesoSEACE.to_dict` and consumed by `seace_db` / `seace_exports`)
  become the structure `Proc`; a field that may be absent or `None` is an
  `Option`.
* SQLite rows of the `procesos` table become the structure `Row`; columns
  that are nullable TEXT are `Option String`, the NOT NULL `nomenclatura`
  column is a plain `String`.
* Wall-clock timestamps (`datetime.now()`, the `actualizado_en` column)
  are abstracted as integers; ISO-8601 strings of a fixed format compare
  lexicographically exactly as their time instants do, so the integer
  abstraction preserves every comparison the code performs.  The
  nondeterministic `datetime.now()` becomes an explicit parameter.
* `float` amounts are modelled as rationals (`ℚ`): the code only ever
  compares and defaults them, which the rational model reflects.
-/

namespace Seace

/-- Tender dictionary as passed around the Python code (the shape produced
by `ProcesoSEACE.to_dict()` in seace_scraper.py and read with `.get` by
`seace_db.guardar_proceso` and the seace_exports filters).  `dias_restantes`
is the key `filtrar_urgentes` writes into the dictionary; `fuente` is the
key `sincronizar_sqlite` adds before persisting. -/
structure Proc where
  nomenclatura : Option String
  entidad : Option String
  descripcion : Option String
  tipo_objeto : Option String
  tipo_procedimiento : Option String
  departamento : Option String
  valor_referencial : Option ℚ
  moneda : Option String
  estado : Option String
  fecha_publicacion : Option String
  fecha_registro_participantes : Option String
  fecha_consultas : Option String
  fecha_observaciones : Option String
  fecha_integracion_bases : Option String
  fecha_presentacion_propuestas : Option String
  fecha_buena_pro : Option String
  url_ficha : Option String
  fuente : Option String
  dias_restantes : Option Int
  deriving DecidableEq, Repr

/-- Row of the SQLite table `procesos` (schema in `SeaceDB._init_db`,
seace_db.py lines 51-74).  `nomenclatura` is TEXT UNIQUE NOT NULL, every
other TEXT column is nullable; `actualizado_en` is the store-assigned
timestamp.  The AUTOINCREMENT surrogate `id` carries no information the
claims touch and is omitted; row identity is the natural key. -/
structure Row where
  nomenclatura : String
  entidad : Option String
  descripcion : Option String
  tipo_objeto : Option String
  tipo_procedimiento : Option String
  departamento : Option String
  valor_referencial : ℚ
  moneda : String
  estado : Option String
  fecha_publicacion : Option String
  fecha_registro_participantes : Option String
  fecha_consultas : Option String
  fecha_observaciones : Option String
  fecha_integracion_bases : Option String
  fecha_presentacion_propuestas : Option String
  fecha_buena_pro : Option String
  url_ficha : Option String
  actualizado_en : Int
  fuente : String
  deriving DecidableEq, Repr

/-- Row built by the INSERT in `guardar_proceso` (seace_db.py lines
117-146): each column is the corresponding `proceso.get(...)`, with the
defaults the code supplies (0 for `valor_referencial`, PEN for `moneda`,
selenium for `fuente`) and `actualizado_en = datetime.now().isoformat()`. -/
def fila_de (p : Proc) (nom : String) (now : Int) : Row where
  nomenclatura := nom
  entidad := p.entidad
  descripcion := p.descripcion
  tipo_objeto := p.tipo_objeto
  tipo_procedimiento := p.tipo_procedimiento
  departamento := p.departamento
  valor_referencial := p.valor_referencial.getD 0
  moneda := p.moneda.getD "PEN"
  estado := p.estado
  fecha_publicacion := p.fecha_publicacion
  fecha_registro_participantes := p.fecha_registro_participantes
  fecha_consultas := p.fecha_consultas
  fecha_observaciones := p.fecha_observaciones
  fecha_integracion_bases := p.fecha_integracion_bases
  fecha_presentacion_propuestas := p.fecha_presentacion_propuestas
  fecha_buena_pro := p.fecha_buena_pro
  url_ficha := p.url_ficha
  actualizado_en := now
  fuente := p.fuente.getD "selenium"

/-- `SeaceDB.guardar_proceso` (seace_db.py lines 103-150): an
`INSERT OR REPLACE` keyed on the UNIQUE `nomenclatura` column, i.e. any
existing row with the same identifier is deleted and the freshly built row
is inserted.  The only failure the typed model retains is the NOT NULL
violation when the dictionary has no `nomenclatura` (Python `get` returns
`None`): the except-branch then returns False and the table is unchanged.
An empty string is NOT NULL-acceptable and is stored. -/
def guardar_proceso (db : List Row) (p : Proc) (now : Int) : List Row × Bool :=
  match p.nomenclatura with
  | none => (db, false)
  | some nom => (db.filter (fun r => !(r.nomenclatura == nom)) ++ [fila_de p nom now], true)

/-- `SeaceDB.guardar_procesos_batch` (seace_db.py lines 152-202): the same
INSERT OR REPLACE applied per row inside one transaction, with a per-row
try/except so one bad row is skipped and counted out; returns the number
of rows written.  The per-row `datetime.now()` calls are collapsed into a
single batch timestamp. -/
def guardar_procesos_batch (db : List Row) (procesos : List Proc) (now : Int) :
    List Row × Nat :=
  procesos.foldl
    (fun acc p =>
      let r := guardar_proceso acc.1 p now
      (r.1, acc.2 + (if r.2 then 1 else 0)))
    (db, 0)

/-- Identifier of a tender dictionary as the exports module reads it:
`p.get('nomenclatura', '')` (seace_exports.py line 61). -/
def nomDe (p : Proc) : String := p.nomenclatura.getD ""

/-- Reference amount as `filtrar_por_monto` reads it:
`float(p.get('valor_referencial', 0) or 0)` (seace_exports.py line 38) —
an absent or `None` amount is treated as 0. -/
def valorDe (p : Proc) : ℚ := p.valor_referencial.getD 0

/-- Loop of `deduplicar_procesos` (seace_exports.py lines 56-65): walk the
list front to back keeping a `vistos` set of identifiers already seen; a
record is kept exactly when its identifier is non-empty (Python truthiness
of `nom`) and not yet seen. -/
def deduplicar_go : List String → List Proc → List Proc
  | _, [] => []
  | vistos, p :: ps =>
    let nom := nomDe p
    if nom ≠ "" ∧ nom ∉ vistos then p :: deduplicar_go (nom :: vistos) ps
    else deduplicar_go vistos ps

/-- `deduplicar_procesos` (seace_exports.py lines 56-65). -/
def deduplicar_procesos (procesos : List Proc) : List Proc :=
  deduplicar_go [] procesos

/-- Spec-side definition for the dedup claim, following the specification
words only: keep, in input order, the first occurrence of each identifier
and drop every later record whose identifier was already seen. -/
def keepFirstById_go : List String → List Proc → List Proc
  | _, [] => []
  | vistos, p :: ps =>
    if nomDe p ∉ vistos then p :: keepFirstById_go (nomDe p :: vistos) ps
    else keepFirstById_go vistos ps

/-- Spec-side dedup: first occurrence per identifier, in input order. -/
def keepFirstById (procesos : List Proc) : List Proc :=
  keepFirstById_go [] procesos

/-- `filtrar_por_monto` (seace_exports.py lines 31-39): the list
comprehension keeping records whose amount is at least the floor. -/
def filtrar_por_monto (procesos : List Proc) (monto_minimo : ℚ) : List Proc :=
  procesos.filter (fun p => monto_minimo ≤ valorDe p)

/-- Python `str.split(sep)` with an explicit one-character separator:
splits at every occurrence of the separator and keeps empty pieces, so the
result is always non-empty (`''.split(' ') == ['']`). -/
def pySplit (sep : Char) : List Char → List (List Char)
  | [] => [[]]
  | c :: cs =>
    let rest := pySplit sep cs
    if c = sep then [] :: rest
    else (c :: rest.headD []) :: rest.tail

/-- Characters Python `int(str)` strips from both ends of its argument. -/
def esEspacio (c : Char) : Bool :=
  c = ' ' ∨ c = '\t' ∨ c = '\n' ∨ c = '\r' ∨ c = '\x0b' ∨ c = '\x0c'

/-- Python `int(str)`: strip surrounding whitespace, accept an optional
sign followed by a non-empty run of decimal digits, fail (raise, here
`none`) on anything else.  Digit-group underscores, which no date string
in this system carries, are not modelled. -/
def pyInt (cs : List Char) : Option Int :=
  let t := ((cs.dropWhile esEspacio).reverse.dropWhile esEspacio).reverse
  match t with
  | [] => none
  | c :: rest =>
    let signed : Bool × List Char :=
      if c = '-' then (true, rest) else if c = '+' then (false, rest) else (false, c :: rest)
    if signed.2 ≠ [] ∧ signed.2.all Char.isDigit then
      let n : Nat := signed.2.foldl (fun acc d => acc * 10 + (d.toNat - 48)) 0
      some (if signed.1 then -(n : Int) else (n : Int))
    else none

/-- Calendar date, as carried by a Python `datetime` at midnight. -/
structure Fecha where
  anio : Int
  mes : Int
  dia : Int
  deriving DecidableEq, Repr

/-- Gregorian leap-year rule, as used by Python `datetime`. -/
def esBisiesto (y : Int) : Bool :=
  y % 4 = 0 ∧ (y % 100 ≠ 0 ∨ y % 400 = 0)

/-- Length of a month in the proleptic Gregorian calendar. -/
def diasEnMes (y m : Int) : Int :=
  if m = 2 then (if esBisiesto y then 29 else 28)
  else if m = 4 ∨ m = 6 ∨ m = 9 ∨ m = 11 then 30
  else 31

/-- Range check the `datetime(year, month, day)` constructor performs:
outside it the constructor raises and `calcular_dias_restantes` returns
`None` through its bare except. -/
def fechaValida (y m d : Int) : Bool :=
  1 ≤ y ∧ y ≤ 9999 ∧ 1 ≤ m ∧ m ≤ 12 ∧ 1 ≤ d ∧ d ≤ diasEnMes y m

/-- Day number of a proleptic-Gregorian date counted from 1970-01-01
(the civil-from-days inverse of the standard days-from-civil algorithm).
Python's `(a - b).days` on two midnight datetimes equals
`rataDie a - rataDie b`. -/
def rataDie (f : Fecha) : Int :=
  let y := f.anio - (if f.mes ≤ 2 then 1 else 0)
  let era := Int.fdiv y 400
  let yoe := y - era * 400
  let mp := Int.emod (f.mes + 9) 12
  let doy := Int.fdiv (153 * mp + 2) 5 + f.dia - 1
  let doe := yoe * 365 + Int.fdiv yoe 4 - Int.fdiv yoe 100 + doy
  era * 146097 + doe - 719468

/-- Date part of `calcular_dias_restantes`: `fecha_parte.split('/')` must
give exactly three pieces `dia, mes, anio`, each must parse as an int, and
`datetime(anio, mes, dia)` must accept them. -/
def parseFecha (cs : List Char) : Option Fecha :=
  match pySplit '/' cs with
  | [diaS, mesS, anioS] =>
    match pyInt diaS, pyInt mesS, pyInt anioS with
    | some dia, some mes, some anio =>
      if fechaValida anio mes dia then some ⟨anio, mes, dia⟩ else none
    | _, _, _ => none
  | _ => none

/-- `calcular_dias_restantes` (seace_exports.py lines 16-28): `None` for a
missing or empty field; otherwise split off everything after the first
space (discarding the time-of-day portion), parse `DD/MM/YYYY`, and return
the day difference to today at midnight.  Any parse failure lands in the
bare except and yields `None`.  The nondeterministic `datetime.now()` is
the explicit parameter `hoy` (today at midnight). -/
def calcular_dias_restantes (fecha_str : Option String) (hoy : Fecha) : Option Int :=
  match fecha_str with
  | none => none
  | some s =>
    if s.data = [] then none
    else
      match parseFecha ((pySplit ' ' s.data).headD []) with
      | some f => some (rataDie f - rataDie hoy)
      | none => none

/-- Dictionary update `p['dias_restantes'] = dias` performed by
`filtrar_urgentes` on every record it selects. -/
def setDias (p : Proc) (d : Int) : Proc := { p with dias_restantes := some d }

/-- `filtrar_urgentes` (seace_exports.py lines 42-53).  The Python loop
mutates each selected dictionary in place (`p['dias_restantes'] = dias`)
and appends that same object to the result, so the model returns both the
selected records and the post-call state of the input list: first
component the `urgentes` result, second component the input list after the
call (aliased records carry the update in both). -/
def filtrar_urgentes (procesos : List Proc) (hoy : Fecha) (dias_limite : Int) :
    List Proc × List Proc :=
  match procesos with
  | [] => ([], [])
  | p :: ps =>
    let rest := filtrar_urgentes ps hoy dias_limite
    match calcular_dias_restantes p.fecha_presentacion_propuestas hoy with
    | some dias =>
      if 0 ≤ dias ∧ dias ≤ dias_limite then
        (setDias p dias :: rest.1, setDias p dias :: rest.2)
      else (rest.1, p :: rest.2)
    | none => (rest.1, p :: rest.2)

/-- Substring test, the semantics of SQLite `LIKE '%pat%'` on the
character level and of Python `pat in s`. -/
def contiene : List Char → List Char → Bool
  | [], ned => ned.isEmpty
  | c :: t, ned => ned.isPrefixOf (c :: t) || contiene t ned

/-- SQLite `column LIKE '%pat%'`: substring match, case-insensitive over
ASCII (modelled by upper-casing both sides, as SQLite's LIKE folds ASCII
case). -/
def likeCI (s pat : String) : Bool := contiene s.toUpper.data pat.toUpper.data

/-- Python truthiness of an optional string parameter (`if departamento:`):
present and non-empty. -/
def truthy (o : Option String) : Bool := !(o.getD "").isEmpty

/-- The `tipo_map` lookup inside `SeaceDB.buscar` (seace_db.py lines
241-246), defaulting to the argument itself. -/
def tipo_nombre_de (t : String) : String :=
  if t.toLower = "obras" then "Obra"
  else if t.toLower = "servicios" then "Servicio"
  else if t.toLower = "consultoria_obras" then "Consultoría de Obra"
  else t

/-- Conjunctive WHERE clause assembled by `SeaceDB.buscar` (seace_db.py
lines 232-266).  Each filter is added only when its parameter is truthy;
a NULL column never satisfies a comparison or LIKE (SQL three-valued
logic makes the row fail the clause). -/
def pasaFiltros (departamento tipo_objeto estado texto : Option String)
    (solo_frescos : Bool) (horas_frescura now : Int) (r : Row) : Bool :=
  (if truthy departamento then
      match r.departamento with
      | some d => d.toUpper == (departamento.getD "").toUpper
      | none => false
    else true)
  && (if truthy tipo_objeto then
      let t := tipo_objeto.getD ""
      match r.tipo_objeto with
      | some s => likeCI s t || likeCI s (tipo_nombre_de t)
      | none => false
    else true)
  && (if truthy estado then
      match r.estado with
      | some s => likeCI s (estado.getD "")
      | none => false
    else true)
  && (if truthy texto then
      let tx := texto.getD ""
      likeCI r.nomenclatura tx
        || (match r.entidad with | some e => likeCI e tx | none => false)
        || (match r.descripcion with | some d => likeCI d tx | none => false)
    else true)
  && (if solo_frescos then decide (now - horas_frescura ≤ r.actualizado_en) else true)

/-- Codepoint-lexicographic strict order on character lists: the order
SQLite's BINARY collation gives TEXT values (byte-wise comparison of the
UTF-8 encodings, which coincides with codepoint order). -/
def ltChars : List Char → List Char → Bool
  | [], [] => false
  | [], _ :: _ => true
  | _ :: _, [] => false
  | c :: cs, d :: ds =>
    if c.toNat < d.toNat then true
    else if d.toNat < c.toNat then false
    else ltChars cs ds

/-- SQLite BINARY comparison of two TEXT values. -/
def strLt (x y : String) : Bool := ltChars x.data y.data

/-- Comparator realising `ORDER BY fecha_publicacion DESC, actualizado_en
DESC` on the pair (fecha_publicacion, actualizado_en): `claveLE a b` holds
when a row with key `a` may be listed at or before a row with key `b`.
`fecha_publicacion` is a TEXT column, so SQLite compares the stored
strings; DESC places NULLs last. -/
def claveLE : Option String × Int → Option String × Int → Bool
  | (some x, s), (some y, t) =>
    if strLt x y then false else if strLt y x then true else decide (t ≤ s)
  | (some _, _), (none, _) => true
  | (none, _), (some _, _) => false
  | (none, s), (none, t) => decide (t ≤ s)

/-- Output order of `SeaceDB.buscar` as a relation on rows. -/
def RowBefore (a b : Row) : Prop :=
  claveLE (a.fecha_publicacion, a.actualizado_en) (b.fecha_publicacion, b.actualizado_en) = true

instance : DecidableRel RowBefore := fun a b =>
  inferInstanceAs (Decidable
    (claveLE (a.fecha_publicacion, a.actualizado_en) (b.fecha_publicacion, b.actualizado_en)
      = true))

/-- `SeaceDB.buscar` (seace_db.py lines 204-274): filter with the
conjunctive WHERE clause, order by the DESC key, cap at `limite` rows.
The sort is realised by insertion sort; SQLite guarantees only
sortedness, which is all the theorems below use. -/
def buscar (db : List Row) (departamento tipo_objeto estado texto : Option String)
    (limite : Nat) (solo_frescos : Bool) (horas_frescura now : Int) : List Row :=
  ((db.filter
      (pasaFiltros departamento tipo_objeto estado texto solo_frescos horas_frescura now)).insertionSort
    RowBefore).take limite

/-- `SeaceDB.datos_frescos_disponibles` (seace_db.py lines 362-372): does
any row satisfy `actualizado_en >= now - horas`. -/
def datos_frescos_disponibles (db : List Row) (horas now : Int) : Bool :=
  0 < (db.filter (fun r => decide (now - horas ≤ r.actualizado_en))).length

/-- Singleton `sync_metadata` row (seace_db.py lines 84-101). -/
structure SyncMeta where
  ultima_sincronizacion : Option Int
  total_procesos : Nat
  duracion_segundos : ℚ
  estado : String
  mensaje : Option String
  deriving DecidableEq, Repr

/-- Initial metadata row inserted by `_init_db` (seace_db.py lines 96-101). -/
def syncMetaInicial : SyncMeta :=
  { ultima_sincronizacion := none
    total_procesos := 0
    duracion_segundos := 0
    estado := "pendiente"
    mensaje := some "Nunca sincronizado" }

/-- Whole database file: the `procesos` table plus the metadata singleton. -/
structure DBState where
  procesos : List Row
  sync_meta : SyncMeta
  deriving DecidableEq, Repr

/-- `SeaceDB.actualizar_sync_metadata` (seace_db.py lines 332-360): always
overwrites `estado` and `ultima_sincronizacion`, overwrites `mensaje` only
when truthy and `duracion` only when not None, and recomputes
`total_procesos` as a live count. -/
def actualizar_sync_metadata (st : DBState) (estado : String)
    (mensaje : Option String) (duracion : Option ℚ) (now : Int) : DBState :=
  { st with
    sync_meta :=
      { estado := estado
        ultima_sincronizacion := some now
        mensaje := if (mensaje.getD "") ≠ "" then mensaje else st.sync_meta.mensaje
        duracion_segundos := duracion.getD st.sync_meta.duracion_segundos
        total_procesos := st.procesos.length } }

/-- OCDS address object, the fields `_extraer_ubicacion` reads. -/
structure Direccion where
  region : Option String
  locality : Option String
  deriving DecidableEq, Repr

/-- OCDS party object, the fields `_extraer_ubicacion` reads. -/
structure Parte where
  roles : List String
  address : Option Direccion
  deriving DecidableEq, Repr

/-- OCDS buyer object. -/
structure Comprador where
  name : Option String
  address : Option Direccion
  deriving DecidableEq, Repr

/-- OCDS milestone, the fields the cronograma loop reads. -/
structure Hito where
  code : Option String
  dueDate : Option String
  deriving DecidableEq, Repr

/-- OCDS tender.value object. -/
structure ValorOCDS where
  amount : Option ℚ
  currency : Option String
  deriving DecidableEq, Repr

/-- OCDS tender.tenderPeriod object. -/
structure PeriodoOCDS where
  startDate : Option String
  deriving DecidableEq, Repr

/-- OCDS tender object: the fields `convertir_a_proceso`,
`_extraer_tipo` and `_extraer_ubicacion` read.  An absent key is `none`
(`release.get("tender", {})` then yields all-default lookups). -/
structure TenderOCDS where
  id : Option String
  value : Option ValorOCDS
  tenderPeriod : Option PeriodoOCDS
  milestones : List Hito
  status : Option String
  title : Option String
  description : Option String
  procurementMethod : Option String
  procurementMethodDetails : Option String
  mainProcurementCategory : Option String
  deliveryAddresses : List Direccion
  deriving DecidableEq, Repr

/-- OCDS release, typed over the keys the code reads.  The JSON payloads
are modelled as well-typed: a key either is absent (`none`) or holds a
value of the expected shape, which is the regime every claim exercises. -/
structure Release where
  ocid : Option String
  tender : Option TenderOCDS
  buyer : Option Comprador
  parties : List Parte
  deriving DecidableEq, Repr

/-- Empty-dict default for `release.get("tender", {})`. -/
def tenderVacio : TenderOCDS :=
  ⟨none, none, none, [], none, none, none, none, none, none, []⟩

/-- Empty-dict default for address lookups. -/
def direccionVacia : Direccion := ⟨none, none⟩

/-- Empty-dict default for `release.get("buyer", {})`. -/
def compradorVacio : Comprador := ⟨none, none⟩

/-- `OCDSScraper._extraer_ubicacion` (seace_ocds.py lines 226-247): first
delivery address region, else the first buyer party's region or locality,
else the buyer's region defaulting to LIMA. -/
def extraer_ubicacion (r : Release) : String :=
  let tender := r.tender.getD tenderVacio
  match tender.deliveryAddresses with
  | a :: _ => a.region.getD ""
  | [] =>
    match r.parties.find? (fun pa => pa.roles.contains "buyer") with
    | some pa =>
      let addr := pa.address.getD direccionVacia
      addr.region.getD (addr.locality.getD "")
    | none =>
      let buyer := r.buyer.getD compradorVacio
      (buyer.address.getD direccionVacia).region.getD "LIMA"

/-- `OCDSScraper._extraer_tipo` (seace_ocds.py lines 249-271):
`mainProcurementCategory` when present, else keyword probing of
`procurementMethodDetails`, defaulting to works. -/
def extraer_tipo (r : Release) : String :=
  let tender := r.tender.getD tenderVacio
  let categoria := tender.mainProcurementCategory.getD ""
  if categoria ≠ "" then categoria
  else
    let details := (tender.procurementMethodDetails.getD "").toLower
    if contiene details.data "obra".data then "works"
    else if contiene details.data "consultor".data then "consultingServices"
    else if contiene details.data "servicio".data then "services"
    else "works"

/-- `TIPOS_OCDS_MAP.get(tipo_ocds, "Obra")` (seace_ocds.py lines 37-42). -/
def tiposOcdsMap (t : String) : String :=
  if t = "goods" then "Bien"
  else if t = "works" then "Obra"
  else if t = "services" then "Servicio"
  else if t = "consultingServices" then "Consultoría de Obra"
  else "Obra"

/-- `status_map.get(status, "Convocado")` (seace_ocds.py lines 325-331). -/
def estadoMap (s : String) : String :=
  if s = "active" then "Convocado"
  else if s = "complete" then "Adjudicado"
  else if s = "cancelled" then "Cancelado"
  else if s = "unsuccessful" then "Desierto"
  else "Convocado"

/-- Digit run to an integer (value of a string of decimal digits). -/
def digitosA (l : List Char) : Int :=
  ((l.foldl (fun a c => a * 10 + (c.toNat - 48)) 0 : Nat) : Int)

/-- Two-digit zero padding, as `strftime` emits for day and month. -/
def pad2 (n : Int) : String :=
  if n < 10 then "0" ++ toString n else toString n

/-- ISO publication-date rewrite inside `convertir_a_proceso` (seace_ocds.py
lines 299-305): `datetime.fromisoformat` then `strftime("%d/%m/%Y")`, the
original string kept on failure.  The model accepts a `YYYY-MM-DD` prefix
that is either the whole string or followed by a `T`/space separator (the
well-formedness of the time-and-offset tail, including the `Z`
replacement, is abstracted) and checks the date ranges the constructor
enforces. -/
def convertir_fecha_pub (s : String) : String :=
  match s.data with
  | y1 :: y2 :: y3 :: y4 :: '-' :: m1 :: m2 :: '-' :: d1 :: d2 :: rest =>
    if ([y1, y2, y3, y4, m1, m2, d1, d2].all Char.isDigit)
        ∧ (rest = [] ∨ rest.headD ' ' = 'T' ∨ rest.headD ' ' = ' ')
        ∧ fechaValida (digitosA [y1, y2, y3, y4]) (digitosA [m1, m2]) (digitosA [d1, d2]) then
      pad2 (digitosA [d1, d2]) ++ "/" ++ pad2 (digitosA [m1, m2]) ++ "/"
        ++ toString (digitosA [y1, y2, y3, y4])
    else s
  | _ => s

/-- Cronograma dates collected from the milestone loop (seace_ocds.py
lines 308-318); later milestones overwrite earlier ones. -/
structure FechasCrono where
  consultas : Option String
  observaciones : Option String
  propuestas : Option String
  deriving DecidableEq, Repr

/-- Milestone loop of `convertir_a_proceso` (seace_ocds.py lines 308-318). -/
def procesar_hitos (hitos : List Hito) : FechasCrono :=
  hitos.foldl
    (fun f m =>
      let code := (m.code.getD "").toLower
      let due := m.dueDate.getD ""
      if contiene code.data "consulta".data then { f with consultas := some due }
      else if contiene code.data "observacion".data then { f with observaciones := some due }
      else if contiene code.data "propuesta".data ∨ contiene code.data "oferta".data then
        { f with propuestas := some due }
      else f)
    ⟨none, none, none⟩

/-- `OCDSScraper.convertir_a_proceso` (seace_ocds.py lines 273-355).  The
identifier is `tender.get("id", ocid)` with `ocid` defaulting to the empty
string; NO validation rejects an absent or empty identifier.  The
`Optional` return mirrors the try/except: in the typed model no step
raises, so the result is always `some`. -/
def convertir_a_proceso (r : Release) : Option Proc :=
  let tender := r.tender.getD tenderVacio
  let buyer := r.buyer.getD compradorVacio
  let ocid := r.ocid.getD ""
  let tender_id := tender.id.getD ocid
  let value := tender.value.getD ⟨none, none⟩
  let valor_ref := value.amount.getD 0
  let moneda := value.currency.getD "PEN"
  let periodo := tender.tenderPeriod.getD ⟨none⟩
  let fecha_pub0 := periodo.startDate.getD ""
  let fecha_pub := if fecha_pub0 ≠ "" then convertir_fecha_pub fecha_pub0 else fecha_pub0
  let fechas := procesar_hitos tender.milestones
  some
    { nomenclatura := some tender_id
      entidad := some (buyer.name.getD "Sin entidad")
      descripcion := some (tender.title.getD (tender.description.getD ""))
      tipo_objeto := some (tiposOcdsMap (extraer_tipo r))
      tipo_procedimiento := some (tender.procurementMethod.getD "")
      departamento := some (extraer_ubicacion r)
      valor_referencial := some valor_ref
      moneda := some moneda
      estado := some (estadoMap (tender.status.getD "active"))
      fecha_publicacion := some fecha_pub
      fecha_registro_participantes := none
      fecha_consultas := fechas.consultas
      fecha_observaciones := fechas.observaciones
      fecha_integracion_bases := none
      fecha_presentacion_propuestas := fechas.propuestas
      fecha_buena_pro := none
      url_ficha := some ("https://contratacionesabiertas.oece.gob.pe/process/" ++ ocid)
      fuente := none
      dias_restantes := none }

/-- `TIPOS_INTERNOS_MAP.get(tipo.lower(), [])` (seace_ocds.py lines 45-50). -/
def tipos_internos_map (t : String) : List String :=
  if t.toLower = "obras" then ["works"]
  else if t.toLower = "servicios" then ["services"]
  else if t.toLower = "consultoria_obras" then ["consultingServices"]
  else if t.toLower = "bienes" then ["goods"]
  else []

/-- `OCDSScraper._obtener_desde_api` (seace_ocds.py lines 155-224): pull
releases, keep those matching the department substring filter (skipped
when the list is empty or contains TODOS) and the OCDS type filter, up to
`limite`.  The paginated HTTP traffic is an oracle: `.ok rs` is the
stream a fully successful fetch yields, `.error msg` a fetch whose first
request raises — the bare except swallows the exception and the function
returns the empty accumulated list. -/
def obtener_desde_api (fetch : Except String (List Release))
    (departamentos tipos_ocds : List String) (limite : Nat) : List Release :=
  match fetch with
  | .error _ => []
  | .ok rs =>
    (rs.filter (fun r =>
      (if departamentos ≠ [] ∧ "TODOS" ∉ departamentos.map String.toUpper then
        departamentos.any (fun d => contiene (extraer_ubicacion r).toUpper.data d.toUpper.data)
      else true)
      && (if tipos_ocds ≠ [] then tipos_ocds.contains (extraer_tipo r) else true))).take limite

/-- `OCDSScraper.descargar_releases` (seace_ocds.py lines 123-153):
apply the parameter defaults, translate internal type codes to OCDS ones,
delegate to the API pull. -/
def descargar_releases (fetch : Except String (List Release))
    (departamentos tipos_objeto : Option (List String)) (limite : Nat) : List Release :=
  let deps := departamentos.getD ["ANCASH", "LIMA"]
  let tipos := tipos_objeto.getD ["obras", "consultoria_obras"]
  obtener_desde_api fetch deps (tipos.flatMap tipos_internos_map) limite

/-- `OCDSScraper.buscar_procesos` (seace_ocds.py lines 357-400): download
`limite * 2` releases, convert, stop at `limite` converted records. -/
def buscar_procesos (fetch : Except String (List Release))
    (departamentos tipos_objeto : Option (List String)) (limite : Nat) : List Proc :=
  ((descargar_releases fetch departamentos tipos_objeto (limite * 2)).filterMap
    convertir_a_proceso).take limite

/-- Result dictionary of `sincronizar_sqlite` (seace_ocds.py lines 420-427). -/
structure ResultadoSync where
  exito : Bool
  procesados : Nat
  guardados : Nat
  errores : Nat
  duracion_segundos : ℚ
  mensaje : String
  deriving DecidableEq, Repr

/-- `OCDSScraper.sincronizar_sqlite` (seace_ocds.py lines 402-478).  A
fetch failure surfaces as an empty `procesos` list (the HTTP exception was
swallowed in `_obtener_desde_api`), hitting the early return that leaves
the database file — rows AND metadata — untouched; only the returned
dictionary reports the failure, and with the generic no-data message, not
the exception text.  On the non-empty path the records are stamped
`fuente = "ocds"`, batch-upserted, and the metadata singleton is set to
`completado`.  Wall-clock duration is the parameter `dur`. -/
def sincronizar_sqlite (st : DBState) (fetch : Except String (List Release))
    (departamentos tipos_objeto : Option (List String)) (limite : Nat)
    (now : Int) (dur : ℚ) : DBState × ResultadoSync :=
  let procesos := buscar_procesos fetch departamentos tipos_objeto limite
  if procesos.isEmpty then
    (st,
      { exito := false, procesados := procesos.length, guardados := 0, errores := 0,
        duracion_segundos := dur, mensaje := "No se encontraron procesos en OCDS" })
  else
    let datos := procesos.map (fun p => { p with fuente := some "ocds" })
    let r := guardar_procesos_batch st.procesos datos now
    let st2 := actualizar_sync_metadata { st with procesos := r.1 } "completado"
      (some ("Sincronizados " ++ toString r.2 ++ " procesos desde OCDS")) (some dur) now
    (st2,
      { exito := true, procesados := procesos.length, guardados := r.2, errores := 0,
        duracion_segundos := dur,
        mensaje := "Sincronizados " ++ toString r.2 ++ " procesos exitosamente" })

/-! Auxiliary facts about the embedded operations. -/

/-- Tender dictionary with every key absent, the base for the concrete
records the witnesses use. -/
def procVacio : Proc :=
  { nomenclatura := none, entidad := none, descripcion := none, tipo_objeto := none,
    tipo_procedimiento := none, departamento := none, valor_referencial := none,
    moneda := none, estado := none, fecha_publicacion := none,
    fecha_registro_participantes := none, fecha_consultas := none,
    fecha_observaciones := none, fecha_integracion_bases := none,
    fecha_presentacion_propuestas := none, fecha_buena_pro := none,
    url_ficha := none, fuente := none, dias_restantes := none }

lemma deduplicar_go_sublist (ps : List Proc) :
    ∀ vistos, (deduplicar_go vistos ps).Sublist ps := by
  induction ps with
  | nil => intro vistos; simp [deduplicar_go]
  | cons p ps ih =>
    intro vistos
    by_cases hc : nomDe p ≠ "" ∧ nomDe p ∉ vistos
    · simpa [deduplicar_go, if_pos hc] using (ih (nomDe p :: vistos)).cons₂ p
    · simpa [deduplicar_go, if_neg hc] using (ih vistos).cons p

lemma mem_deduplicar_go {q : Proc} (ps : List Proc) :
    ∀ vistos, q ∈ deduplicar_go vistos ps → nomDe q ≠ "" := by
  induction ps with
  | nil => intro vistos h; simp [deduplicar_go] at h
  | cons p ps ih =>
    intro vistos h
    by_cases hc : nomDe p ≠ "" ∧ nomDe p ∉ vistos
    · rw [deduplicar_go, if_pos hc] at h
      rcases List.mem_cons.mp h with rfl | h'
      · exact hc.1
      · exact ih _ h'
    · rw [deduplicar_go, if_neg hc] at h
      exact ih _ h

lemma deduplicar_go_eq_keepFirst (ps : List Proc) :
    ∀ vistos, (∀ p ∈ ps, nomDe p ≠ "") →
      deduplicar_go vistos ps = keepFirstById_go vistos ps := by
  induction ps with
  | nil => intro vistos _; simp [deduplicar_go, keepFirstById_go]
  | cons p ps ih =>
    intro vistos h
    have hp : nomDe p ≠ "" := h p (List.mem_cons_self p ps)
    have hs : ∀ q ∈ ps, nomDe q ≠ "" := fun q hq => h q (List.mem_cons_of_mem p hq)
    by_cases hv : nomDe p ∈ vistos
    · rw [deduplicar_go, keepFirstById_go, if_neg (by simp [hv]), if_neg (by simp [hv])]
      exact ih vistos hs
    · rw [deduplicar_go, keepFirstById_go, if_pos ⟨hp, hv⟩, if_pos hv]
      rw [ih (nomDe p :: vistos) hs]

lemma not_mem_vistos_of_mem_deduplicar_go {x : String} (ps : List Proc) :
    ∀ vistos, x ∈ (deduplicar_go vistos ps).map nomDe → x ∉ vistos := by
  induction ps with
  | nil => intro vistos h; simp [deduplicar_go] at h
  | cons p ps ih =>
    intro vistos h
    by_cases hc : nomDe p ≠ "" ∧ nomDe p ∉ vistos
    · rw [deduplicar_go, if_pos hc] at h
      rcases List.mem_cons.mp h with rfl | h'
      · exact hc.2
      · intro hx
        exact ih _ h' (List.mem_cons_of_mem _ hx)
    · rw [deduplicar_go, if_neg hc] at h
      exact ih _ h

lemma deduplicar_go_nodup (ps : List Proc) :
    ∀ vistos, ((deduplicar_go vistos ps).map nomDe).Nodup := by
  induction ps with
  | nil => intro vistos; simp [deduplicar_go]
  | cons p ps ih =>
    intro vistos
    by_cases hc : nomDe p ≠ "" ∧ nomDe p ∉ vistos
    · rw [deduplicar_go, if_pos hc]
      refine List.nodup_cons.mpr ⟨fun hmem => ?_, ih _⟩
      exact not_mem_vistos_of_mem_deduplicar_go ps _ hmem (List.mem_cons_self _ _)
    · rw [deduplicar_go, if_neg hc]
      exact ih _

/-- Tender A of the C1 scenario: identifier X, amount 100. -/
def procX100 : Proc :=
  { procVacio with nomenclatura := some "X", entidad := some "EA", valor_referencial := some 100 }

/-- Tender B of the C1 scenario: identifier X, amount 200. -/
def procX200 : Proc :=
  { procVacio with nomenclatura := some "X", entidad := some "EB", valor_referencial := some 200 }

/-- T1(id=a) of the dedup example. -/
def procT1 : Proc := { procVacio with nomenclatura := some "a", entidad := some "T1" }

/-- T2(id=b) of the dedup example. -/
def procT2 : Proc := { procVacio with nomenclatura := some "b", entidad := some "T2" }

/-- T3(id=a) of the dedup example. -/
def procT3 : Proc := { procVacio with nomenclatura := some "a", entidad := some "T3" }

/-- Record with an empty-string identifier. -/
def procSinId : Proc := { procVacio with nomenclatura := some "" }

/-- Record with identifier A. -/
def procIdA : Proc := { procVacio with nomenclatura := some "A" }

/-- Record at exactly the 8-UIT floor of 42800. -/
def procMonto42800 : Proc :=
  { procVacio with nomenclatura := some "M1", valor_referencial := some 42800 }

/-- Record below the floor. -/
def procMonto5 : Proc :=
  { procVacio with nomenclatura := some "M2", valor_referencial := some 5 }

/-! Claim theorems. -/

/-- C1: upserting tender A and then tender B under the same identifier
leaves exactly one stored row with that identifier, every field of which
is built from B with the store-assigned write timestamp of B; nothing of
A survives (INSERT OR REPLACE on the UNIQUE natural key is whole-row,
last-writer-wins replacement). -/
theorem C1_last_writer_wins (db : List Row) (A B : Proc) (tA tB : Int) (id : String)
    (hA : A.nomenclatura = some id) (hB : B.nomenclatura = some id) :
    ((guardar_proceso (guardar_proceso db A tA).1 B tB).1.filter
      (fun r => r.nomenclatura == id)) = [fila_de B id tB] := by
  simp only [guardar_proceso, hA, hB]
  simp [List.filter_append, List.filter_filter, fila_de]

/-- Concrete instance of C1: two writes under identifier X, amounts 100
then 200; the surviving row is exactly B's. -/
theorem C1_witness :
    procX100.nomenclatura = some "X"
    ∧ procX200.nomenclatura = some "X"
    ∧ ((guardar_proceso (guardar_proceso [] procX100 1).1 procX200 2).1.filter
        (fun r => r.nomenclatura == "X"))
      = [fila_de procX200 "X" 2] :=
  ⟨rfl, rfl, C1_last_writer_wins [] procX100 procX200 1 2 "X" rfl rfl⟩

/-- C4: the amount filter returns exactly the order-preserving subset of
records whose reference amount is at least the floor, with an amount equal
to the floor included. -/
theorem C4_filtro_monto (procesos : List Proc) (F : ℚ) :
    (filtrar_por_monto procesos F).Sublist procesos
    ∧ (∀ p : Proc, p ∈ filtrar_por_monto procesos F ↔ p ∈ procesos ∧ F ≤ valorDe p)
    ∧ (∀ p ∈ procesos, valorDe p = F → p ∈ filtrar_por_monto procesos F) := by
  refine ⟨List.filter_sublist _, fun p => ?_, fun p hp he => ?_⟩
  · simp [filtrar_por_monto]
  · simp [filtrar_por_monto, List.mem_filter, hp, he]

/-- Concrete instance of C4: with floor 42800, a record at exactly 42800
is kept. -/
theorem C4_witness :
    procMonto42800 ∈ [procMonto42800, procMonto5]
    ∧ valorDe procMonto42800 = 42800
    ∧ procMonto42800 ∈ filtrar_por_monto [procMonto42800, procMonto5] 42800 :=
  ⟨by decide, by decide,
    (C4_filtro_monto [procMonto42800, procMonto5] 42800).2.2 procMonto42800
      (by decide) (by decide)⟩

/-- C2: over tender lists whose identifiers are all non-empty (the data
model invariant), `deduplicar_procesos` is exactly the spec-side
keep-the-first-occurrence-per-identifier function; its output is an
order-preserving sublist of the input with pairwise-distinct identifiers. -/
theorem C2_dedup_primera_ocurrencia (procesos : List Proc)
    (h : ∀ p ∈ procesos, nomDe p ≠ "") :
    deduplicar_procesos procesos = keepFirstById procesos
    ∧ (deduplicar_procesos procesos).Sublist procesos
    ∧ ((deduplicar_procesos procesos).map nomDe).Nodup :=
  ⟨deduplicar_go_eq_keepFirst procesos [] h, deduplicar_go_sublist procesos [],
    deduplicar_go_nodup procesos []⟩

/-- Concrete instance of C2, the spec's own example: input
[T1(id=a), T2(id=b), T3(id=a)] dedups to [T1, T2]. -/
theorem C2_witness :
    (∀ p ∈ [procT1, procT2, procT3], nomDe p ≠ "")
    ∧ deduplicar_procesos [procT1, procT2, procT3] = [procT1, procT2] :=
  ⟨by decide,
    ((C2_dedup_primera_ocurrencia [procT1, procT2, procT3] (by decide)).1).trans (by decide)⟩

/-- C10: every record in `deduplicar_procesos`'s output has a present,
non-empty identifier — a record whose identifier is missing or empty is
silently dropped, even when it is the only occurrence. -/
theorem C10_dedup_descarta_sin_id (procesos : List Proc) (q : Proc)
    (hq : q ∈ deduplicar_procesos procesos) :
    q.nomenclatura ≠ none ∧ q.nomenclatura ≠ some "" := by
  have h := mem_deduplicar_go procesos [] hq
  constructor
  · intro hn
    exact h (by simp [nomDe, hn])
  · intro hn
    exact h (by simp [nomDe, hn])

lemma pySplit_ne_nil (sep : Char) (l : List Char) : pySplit sep l ≠ [] := by
  cases l with
  | nil => simp [pySplit]
  | cons c cs =>
    rw [pySplit]
    split <;> simp

lemma pySplit_headD_append (sep : Char) (r : List Char) :
    ∀ l, sep ∉ l → (pySplit sep (l ++ sep :: r)).headD [] = l := by
  intro l
  induction l with
  | nil => intro _; simp [pySplit]
  | cons c t ih =>
    intro h
    have hc : ¬(c = sep) := fun hcs => h (hcs ▸ List.mem_cons_self c t)
    have ht : sep ∉ t := fun hts => h (List.mem_cons_of_mem c hts)
    simp only [List.cons_append, pySplit, if_neg hc, List.headD_cons]
    show c :: (pySplit sep (t ++ sep :: r)).headD [] = c :: t
    rw [ih ht]

lemma pySplit_headD_no_sep (sep : Char) :
    ∀ l, sep ∉ l → (pySplit sep l).headD [] = l := by
  intro l
  induction l with
  | nil => intro _; simp [pySplit]
  | cons c t ih =>
    intro h
    have hc : ¬(c = sep) := fun hcs => h (hcs ▸ List.mem_cons_self c t)
    have ht : sep ∉ t := fun hts => h (List.mem_cons_of_mem c hts)
    simp only [pySplit, if_neg hc, List.headD_cons]
    rw [ih ht]

lemma mem_filtrar_urgentes (procesos : List Proc) (hoy : Fecha) (limite : Int) (q : Proc) :
    q ∈ (filtrar_urgentes procesos hoy limite).1 ↔
      ∃ p, p ∈ procesos ∧ ∃ d : Int,
        calcular_dias_restantes p.fecha_presentacion_propuestas hoy = some d
        ∧ 0 ≤ d ∧ d ≤ limite ∧ q = setDias p d := by
  induction procesos with
  | nil => simp [filtrar_urgentes]
  | cons p ps ih =>
    cases hc : calcular_dias_restantes p.fecha_presentacion_propuestas hoy with
    | none =>
      simp only [filtrar_urgentes, hc]
      rw [ih]
      constructor
      · rintro ⟨p', hp', hd⟩
        exact ⟨p', List.mem_cons_of_mem p hp', hd⟩
      · rintro ⟨p', hp', d, hd, hrest⟩
        rcases List.mem_cons.mp hp' with rfl | hp''
        · rw [hd] at hc
          exact absurd hc (by simp)
        · exact ⟨p', hp'', d, hd, hrest⟩
    | some dias =>
      by_cases hr : 0 ≤ dias ∧ dias ≤ limite
      · simp only [filtrar_urgentes, hc]
        rw [if_pos hr, List.mem_cons, ih]
        constructor
        · rintro (rfl | ⟨p', hp', d, hd, h0, hl, rfl⟩)
          · exact ⟨p, List.mem_cons_self p ps, dias, hc, hr.1, hr.2, rfl⟩
          · exact ⟨p', List.mem_cons_of_mem p hp', d, hd, h0, hl, rfl⟩
        · rintro ⟨p', hp', d, hd, h0, hl, rfl⟩
          rcases List.mem_cons.mp hp' with rfl | hp''
          · rw [hd] at hc
            injection hc with hdd
            left
            rw [hdd]
          · exact Or.inr ⟨p', hp'', d, hd, h0, hl, rfl⟩
      · simp only [filtrar_urgentes, hc]
        rw [if_neg hr, ih]
        constructor
        · rintro ⟨p', hp', hd⟩
          exact ⟨p', List.mem_cons_of_mem p hp', hd⟩
        · rintro ⟨p', hp', d, hd, h0, hl, hq⟩
          rcases List.mem_cons.mp hp' with rfl | hp''
          · rw [hd] at hc
            injection hc with hdd
            exact absurd ⟨hdd ▸ h0, hdd ▸ hl⟩ hr
          · exact ⟨p', hp'', d, hd, h0, hl, hq⟩

/-- C3: membership in `filtrar_urgentes` output is exactly "the
bid-submission deadline parses and its calendar-day distance from today
lies between 0 and the limit inclusive" (so missing and unparseable
deadlines are never selected); the boundary at exactly `dias_limite` days
is included and `dias_limite + 1` excluded; and only the date portion of
the deadline string (before the first space) is used. -/
theorem C3_filtro_urgencia :
    (∀ (procesos : List Proc) (hoy : Fecha) (limite : Int) (q : Proc),
      q ∈ (filtrar_urgentes procesos hoy limite).1 ↔
        ∃ p, p ∈ procesos ∧ ∃ d : Int,
          calcular_dias_restantes p.fecha_presentacion_propuestas hoy = some d
          ∧ 0 ≤ d ∧ d ≤ limite ∧ q = setDias p d)
    ∧ (∀ (procesos : List Proc) (hoy : Fecha) (limite : Int) (q : Proc),
        q ∈ (filtrar_urgentes procesos hoy limite).1 →
          ∃ d : Int, calcular_dias_restantes q.fecha_presentacion_propuestas hoy = some d
            ∧ 0 ≤ d ∧ d ≤ limite)
    ∧ (∀ (p : Proc) (hoy : Fecha) (limite : Int), 0 ≤ limite →
        calcular_dias_restantes p.fecha_presentacion_propuestas hoy = some limite →
          (filtrar_urgentes [p] hoy limite).1 = [setDias p limite])
    ∧ (∀ (p : Proc) (hoy : Fecha) (limite : Int),
        calcular_dias_restantes p.fecha_presentacion_propuestas hoy = some (limite + 1) →
          (filtrar_urgentes [p] hoy limite).1 = [])
    ∧ (∀ (l r : List Char) (hoy : Fecha), ' ' ∉ l → l ≠ [] →
        calcular_dias_restantes (some (String.mk (l ++ ' ' :: r))) hoy
          = calcular_dias_restantes (some (String.mk l)) hoy) := by
  refine ⟨mem_filtrar_urgentes, ?_, ?_, ?_, ?_⟩
  · intro procesos hoy limite q hq
    rcases (mem_filtrar_urgentes procesos hoy limite q).mp hq with ⟨p, _, d, hd, h0, hl, rfl⟩
    exact ⟨d, hd, h0, hl⟩
  · intro p hoy limite h0 hc
    simp only [filtrar_urgentes, hc]
    rw [if_pos ⟨h0, le_refl limite⟩]
  · intro p hoy limite hc
    simp only [filtrar_urgentes, hc]
    rw [if_neg (by omega)]
  · intro l r hoy hl hln
    show (if (l ++ ' ' :: r) = [] then none
          else match parseFecha ((pySplit ' ' (l ++ ' ' :: r)).headD []) with
            | some f => some (rataDie f - rataDie hoy)
            | none => none)
        = (if l = [] then none
          else match parseFecha ((pySplit ' ' l).headD []) with
            | some f => some (rataDie f - rataDie hoy)
            | none => none)
    rw [if_neg (by simp), if_neg hln, pySplit_headD_append ' ' r l hl, pySplit_headD_no_sep ' ' l hl]

/-- Record with deadline 25/12/2026 10:00 (three days after the witness's
"today"). -/
def procUrgente : Proc :=
  { procVacio with
    nomenclatura := some "U1"
    fecha_presentacion_propuestas := some "25/12/2026 10:00" }

/-- Concrete instance of C3: today 22/12/2026, limit 3; a deadline exactly
3 days out (with a time-of-day component) is included. -/
theorem C3_witness :
    (0 : Int) ≤ 3
    ∧ calcular_dias_restantes procUrgente.fecha_presentacion_propuestas ⟨2026, 12, 22⟩ = some 3
    ∧ (filtrar_urgentes [procUrgente] ⟨2026, 12, 22⟩ 3).1 = [setDias procUrgente 3] :=
  ⟨by decide, by decide,
    C3_filtro_urgencia.2.2.1 procUrgente ⟨2026, 12, 22⟩ 3 (by decide) (by decide)⟩

lemma filtrar_urgentes_post (procesos : List Proc) (hoy : Fecha) (limite : Int) :
    (filtrar_urgentes procesos hoy limite).2 = procesos.map (fun p =>
      match calcular_dias_restantes p.fecha_presentacion_propuestas hoy with
      | some d => if 0 ≤ d ∧ d ≤ limite then setDias p d else p
      | none => p) := by
  induction procesos with
  | nil => simp [filtrar_urgentes]
  | cons p ps ih =>
    cases hc : calcular_dias_restantes p.fecha_presentacion_propuestas hoy with
    | none =>
      simp only [filtrar_urgentes, hc, List.map_cons]
      rw [ih]
    | some d =>
      by_cases hr : 0 ≤ d ∧ d ≤ limite
      · simp only [filtrar_urgentes, hc, List.map_cons]
        rw [if_pos hr, if_pos hr, ih]
      · simp only [filtrar_urgentes, hc, List.map_cons]
        rw [if_neg hr, if_neg hr, ih]

/-- C8 as stated is false: `filtrar_urgentes` mutates its input records.
On a one-record list whose deadline is 3 days out, the input list after
the call differs from the original (the record gained
`dias_restantes = 3`). -/
theorem C8_counterexample :
    (filtrar_urgentes [procUrgente] ⟨2026, 12, 22⟩ 3).2 ≠ [procUrgente] := by
  decide

/-- C8 amended: `deduplicar_procesos` and `filtrar_por_monto` are
side-effect-free — their outputs are order-preserving sublists of the
untouched input records — but `filtrar_urgentes` updates every record it
selects in place, setting its `dias_restantes` key; records it does not
select are left unchanged. -/
theorem C8_efectos (procesos : List Proc) (hoy : Fecha) (limite : Int) (F : ℚ) :
    (deduplicar_procesos procesos).Sublist procesos
    ∧ (filtrar_por_monto procesos F).Sublist procesos
    ∧ (filtrar_urgentes procesos hoy limite).2 = procesos.map (fun p =>
        match calcular_dias_restantes p.fecha_presentacion_propuestas hoy with
        | some d => if 0 ≤ d ∧ d ≤ limite then setDias p d else p
        | none => p) :=
  ⟨deduplicar_go_sublist procesos [], List.filter_sublist _,
    filtrar_urgentes_post procesos hoy limite⟩

/-- Database state as initialised by `_init_db`: empty tender table plus
the initial metadata singleton. -/
def estadoInicial : DBState := { procesos := [], sync_meta := syncMetaInicial }

/-- C5 as stated is false: when the fetch fails, SyncMetadata is NOT set
to error — the HTTP exception is swallowed inside `_obtener_desde_api`,
`sincronizar_sqlite` takes the empty-result early return, and the whole
database state (rows and metadata) is exactly as before, still in its
initial `pendiente` state. -/
theorem C5_counterexample :
    (sincronizar_sqlite estadoInicial
        (.error "HTTPSConnectionPool: Max retries exceeded") none none 500 100 2).1
      = estadoInicial
    ∧ estadoInicial.sync_meta.estado = "pendiente"
    ∧ ("pendiente" : String) ≠ "error" := by
  refine ⟨rfl, rfl, ?_⟩
  decide

/-- C5 amended: a sync run whose fetch fails writes no tender row AND
leaves the SyncMetadata singleton completely unchanged (it is never set to
an error state); the failure surfaces only in the returned result
dictionary, with the generic no-data message — not the exception's text —
and `errores = 0`. -/
theorem C5_fallo_fetch (st : DBState) (msg : String)
    (departamentos tipos_objeto : Option (List String)) (limite : Nat)
    (now : Int) (dur : ℚ) :
    sincronizar_sqlite st (.error msg) departamentos tipos_objeto limite now dur
      = (st,
        { exito := false, procesados := 0, guardados := 0, errores := 0,
          duracion_segundos := dur, mensaje := "No se encontraron procesos en OCDS" }) := by
  simp [sincronizar_sqlite, buscar_procesos, descargar_releases, obtener_desde_api]

/-- Release with every key absent: no tender id, no ocid. -/
def releaseVacio : Release := { ocid := none, tender := none, buyer := none, parties := [] }

/-- C6 as stated is false: a release with no identifier at all still
normalizes (no MissingIdentifier failure exists in the code) to a tender
whose identifier is the empty string, and the store accepts and writes
that record — the NOT NULL constraint only rejects a missing identifier,
not an empty one. -/
theorem C6_counterexample :
    (convertir_a_proceso releaseVacio).isSome = true
    ∧ (convertir_a_proceso releaseVacio).map Proc.nomenclatura = some (some "")
    ∧ (guardar_proceso [] ((convertir_a_proceso releaseVacio).getD procVacio) 0).2 = true
    ∧ ((guardar_proceso [] ((convertir_a_proceso releaseVacio).getD procVacio) 0).1.map
        Row.nomenclatura) = [""] := by
  refine ⟨rfl, rfl, rfl, rfl⟩

/-- C6 amended: normalization never fails for a missing identifier — it
falls back from `tender.id` to the release's `ocid` and then to the empty
string — and the store rejects a record exactly when its identifier key is
absent (`None`, the NOT NULL violation); an empty-string identifier is
accepted and written. -/
theorem C6_sin_validacion (r : Release) (db : List Row) (now : Int) :
    (∃ p : Proc, convertir_a_proceso r = some p
      ∧ p.nomenclatura = some ((r.tender.getD tenderVacio).id.getD (r.ocid.getD ""))
      ∧ (guardar_proceso db p now).2 = true)
    ∧ (∀ p : Proc, (guardar_proceso db p now).2 = false ↔ p.nomenclatura = none) := by
  constructor
  · exact ⟨_, rfl, rfl, rfl⟩
  · intro p
    cases hp : p.nomenclatura with
    | none => simp [guardar_proceso, hp]
    | some nom => simp [guardar_proceso, hp]

lemma ltChars_asymm : ∀ a b, ltChars a b = true → ltChars b a = false := by
  intro a
  induction a with
  | nil =>
    intro b h
    cases b with
    | nil => simp [ltChars] at h
    | cons d ds => simp [ltChars]
  | cons c cs ih =>
    intro b h
    cases b with
    | nil => simp [ltChars] at h
    | cons d ds =>
      rw [ltChars] at h ⊢
      by_cases h1 : c.toNat < d.toNat
      · rw [if_neg (by omega), if_pos h1]
      · by_cases h2 : d.toNat < c.toNat
        · rw [if_neg h1, if_pos h2] at h
          exact absurd h (by simp)
        · rw [if_neg h1, if_neg h2] at h
          rw [if_neg h2, if_neg h1]
          exact ih ds h

lemma ltChars_trans : ∀ a b c, ltChars a b = true → ltChars b c = true →
    ltChars a c = true := by
  intro a
  induction a with
  | nil =>
    intro b c hab hbc
    cases b with
    | nil => simp [ltChars] at hab
    | cons y ys =>
      cases c with
      | nil => simp [ltChars] at hbc
      | cons z zs => simp [ltChars]
  | cons x xs ih =>
    intro b c hab hbc
    cases b with
    | nil => simp [ltChars] at hab
    | cons y ys =>
      cases c with
      | nil => simp [ltChars] at hbc
      | cons z zs =>
        rw [ltChars] at hab hbc ⊢
        by_cases h1 : x.toNat < y.toNat
        · by_cases h2 : y.toNat < z.toNat
          · rw [if_pos (by omega)]
          · by_cases h3 : z.toNat < y.toNat
            · rw [if_neg h2, if_pos h3] at hbc
              exact absurd hbc (by simp)
            · rw [if_pos (by omega)]
        · by_cases h4 : y.toNat < x.toNat
          · rw [if_neg h1, if_pos h4] at hab
            exact absurd hab (by simp)
          · rw [if_neg h1, if_neg h4] at hab
            by_cases h2 : y.toNat < z.toNat
            · rw [if_pos (by omega)]
            · by_cases h3 : z.toNat < y.toNat
              · rw [if_neg h2, if_pos h3] at hbc
                exact absurd hbc (by simp)
              · rw [if_neg h2, if_neg h3] at hbc
                rw [if_neg (by omega), if_neg (by omega)]
                exact ih ys zs hab hbc

lemma ltChars_eq_of_not_lt : ∀ a b, ltChars a b = false → ltChars b a = false →
    a = b := by
  intro a
  induction a with
  | nil =>
    intro b h1 _
    cases b with
    | nil => rfl
    | cons d ds => simp [ltChars] at h1
  | cons c cs ih =>
    intro b h1 h2
    cases b with
    | nil => simp [ltChars] at h2
    | cons d ds =>
      rw [ltChars] at h1 h2
      by_cases hc1 : c.toNat < d.toNat
      · rw [if_pos hc1] at h1
        exact absurd h1 (by simp)
      · by_cases hc2 : d.toNat < c.toNat
        · rw [if_pos hc2] at h2
          exact absurd h2 (by simp)
        · rw [if_neg hc1, if_neg hc2] at h1
          rw [if_neg hc2, if_neg hc1] at h2
          have hcd : c = d := Char.eq_of_val_eq (UInt32.ext (show c.toNat = d.toNat by omega))
          rw [hcd, ih ds h1 h2]

lemma ltChars_irrefl : ∀ a, ltChars a a = false := by
  intro a
  induction a with
  | nil => rfl
  | cons c cs ih =>
    rw [ltChars, if_neg (by omega), if_neg (by omega)]
    exact ih

lemma strLt_irrefl (x : String) : strLt x x = false := ltChars_irrefl x.data

lemma strLt_asymm {x y : String} (h : strLt x y = true) : strLt y x = false :=
  ltChars_asymm x.data y.data h

lemma strLt_trans {x y z : String} (h1 : strLt x y = true) (h2 : strLt y z = true) :
    strLt x z = true :=
  ltChars_trans x.data y.data z.data h1 h2

lemma strLt_data_eq {x y : String} (h1 : strLt x y = false) (h2 : strLt y x = false) :
    x.data = y.data :=
  ltChars_eq_of_not_lt x.data y.data h1 h2

lemma strLt_congr_left {x y : String} (z : String) (h : x.data = y.data) :
    strLt x z = strLt y z := by
  show ltChars x.data z.data = ltChars y.data z.data
  rw [h]

lemma strLt_congr_right {x y : String} (z : String) (h : x.data = y.data) :
    strLt z x = strLt z y := by
  show ltChars z.data x.data = ltChars z.data y.data
  rw [h]

lemma bool_not_true {b : Bool} (h : ¬(b = true)) : b = false := by
  cases b
  · rfl
  · exact absurd rfl h

lemma claveLE_trans : ∀ p q r, claveLE p q = true → claveLE q r = true →
    claveLE p r = true := by
  rintro ⟨po, ps⟩ ⟨qo, qs⟩ ⟨ro, rs⟩ hpq hqr
  cases po with
  | none =>
    cases qo with
    | none =>
      cases ro with
      | none =>
        simp only [claveLE, decide_eq_true_eq] at *
        omega
      | some z => simp [claveLE] at hqr
    | some y => simp [claveLE] at hpq
  | some x =>
    cases qo with
    | none =>
      cases ro with
      | none => simp [claveLE]
      | some z => simp [claveLE] at hqr
    | some y =>
      cases ro with
      | none => simp [claveLE]
      | some z =>
        simp only [claveLE] at hpq hqr ⊢
        by_cases h1 : strLt x y = true
        · rw [if_pos h1] at hpq
          exact absurd hpq (by simp)
        · rw [if_neg h1] at hpq
          by_cases h2 : strLt y z = true
          · rw [if_pos h2] at hqr
            exact absurd hqr (by simp)
          · rw [if_neg h2] at hqr
            by_cases h3 : strLt y x = true
            · by_cases h4 : strLt z y = true
              · have hzx : strLt z x = true := strLt_trans h4 h3
                rw [if_neg (by simp [strLt_asymm hzx]), if_pos hzx]
              · have hyz : y.data = z.data :=
                  strLt_data_eq (bool_not_true h2) (bool_not_true h4)
                have hzx : strLt z x = true := (strLt_congr_left x hyz.symm).trans h3
                rw [if_neg (by simp [strLt_asymm hzx]), if_pos hzx]
            · rw [if_neg h3, decide_eq_true_eq] at hpq
              have hxy : x.data = y.data :=
                strLt_data_eq (bool_not_true h1) (bool_not_true h3)
              by_cases h4 : strLt z y = true
              · have hzx : strLt z x = true := (strLt_congr_right z hxy).trans h4
                rw [if_neg (by simp [strLt_asymm hzx]), if_pos hzx]
              · rw [if_neg h4, decide_eq_true_eq] at hqr
                have hyz : y.data = z.data :=
                  strLt_data_eq (bool_not_true h2) (bool_not_true h4)
                have hxz : strLt x z = false := by
                  rw [strLt_congr_left z (hxy.trans hyz), strLt_irrefl]
                have hzx : strLt z x = false := by
                  rw [strLt_congr_right z (hxy.trans hyz), strLt_irrefl]
                rw [if_neg (by simp [hxz]), if_neg (by simp [hzx]), decide_eq_true_eq]
                omega

lemma claveLE_total : ∀ p q, claveLE p q = true ∨ claveLE q p = true := by
  rintro ⟨po, ps⟩ ⟨qo, qs⟩
  cases po with
  | none =>
    cases qo with
    | none =>
      simp only [claveLE, decide_eq_true_eq]
      omega
    | some y => right; simp [claveLE]
  | some x =>
    cases qo with
    | none => left; simp [claveLE]
    | some y =>
      simp only [claveLE]
      by_cases h1 : strLt x y = true
      · right
        rw [if_neg (by simp [strLt_asymm h1]), if_pos h1]
      · by_cases h2 : strLt y x = true
        · left
          rw [if_neg h1, if_pos h2]
        · rw [if_neg h1, if_neg h2, if_neg h2, if_neg h1, decide_eq_true_eq,
            decide_eq_true_eq]
          omega

instance : IsTrans Row RowBefore where
  trans _ _ _ hab hbc := claveLE_trans _ _ _ hab hbc

instance : IsTotal Row RowBefore where
  total _ _ := claveLE_total _ _

/-- Spec-side reading of the ORDER BY key: row `a` may precede row `b`
exactly when `a`'s publication string is larger (as SQLite compares the
TEXT column byte-wise), or the strings tie and `a` is at least as recently
refreshed; a NULL publication date sorts after every non-NULL one. -/
def OrdenBuscar (a b : Row) : Prop :=
  match a.fecha_publicacion, b.fecha_publicacion with
  | some x, some y =>
    strLt y x = true ∨ (y.data = x.data ∧ b.actualizado_en ≤ a.actualizado_en)
  | some _, none => True
  | none, some _ => False
  | none, none => b.actualizado_en ≤ a.actualizado_en

lemma rowBefore_iff_ordenBuscar (a b : Row) : RowBefore a b ↔ OrdenBuscar a b := by
  unfold RowBefore OrdenBuscar claveLE
  cases a.fecha_publicacion with
  | none =>
    cases b.fecha_publicacion with
    | none => simp
    | some y => simp
  | some x =>
    cases b.fecha_publicacion with
    | none => simp
    | some y =>
      show (if strLt x y then false else if strLt y x then true
            else decide (b.actualizado_en ≤ a.actualizado_en)) = true ↔
          (strLt y x = true ∨ (y.data = x.data ∧ b.actualizado_en ≤ a.actualizado_en))
      by_cases h1 : strLt x y = true
      · rw [if_pos h1]
        simp only [Bool.false_eq_true, false_iff]
        rintro (h | ⟨hd, -⟩)
        · rw [strLt_asymm h1] at h
          exact absurd h (by simp)
        · rw [strLt_congr_right x hd, strLt_irrefl] at h1
          exact absurd h1 (by simp)
      · rw [if_neg h1]
        by_cases h2 : strLt y x = true
        · rw [if_pos h2]
          simp [h2]
        · rw [if_neg h2]
          have hd : y.data = x.data :=
            strLt_data_eq (bool_not_true h2) (bool_not_true h1)
          simp [bool_not_true h2, hd]

/-- Over a query with every optional filter off and the freshness filter
on, `pasaFiltros` is exactly the freshness cutoff. -/
lemma pasaFiltros_none (horas now : Int) (r : Row) :
    pasaFiltros none none none none true horas now r
      = decide (now - horas ≤ r.actualizado_en) := rfl

/-- C7: with the freshness filter enabled (and no other filter active, on
a query whose limit does not truncate), a row is returned exactly when its
store-assigned refresh timestamp T satisfies now - T ≤ W; the row at
exactly the cutoff T = now - W is included, since the SQL comparison is
`actualizado_en >= now - W`. -/
theorem C7_ventana_frescura (db : List Row) (limite : Nat) (horas now : Int) (r : Row)
    (hlim : (db.filter (pasaFiltros none none none none true horas now)).length ≤ limite) :
    r ∈ buscar db none none none none limite true horas now ↔
      r ∈ db ∧ now - r.actualizado_en ≤ horas := by
  unfold buscar
  have hperm := List.perm_insertionSort RowBefore
    (db.filter (pasaFiltros none none none none true horas now))
  rw [List.take_of_length_le (by rw [hperm.length_eq]; exact hlim)]
  rw [hperm.mem_iff, List.mem_filter, pasaFiltros_none]
  simp only [decide_eq_true_eq]
  exact and_congr_right fun _ => by omega

/-- Row refreshed at time 5 with identifier F. -/
def filaFresca : Row :=
  { nomenclatura := "F", entidad := none, descripcion := none, tipo_objeto := none,
    tipo_procedimiento := none, departamento := none, valor_referencial := 0,
    moneda := "PEN", estado := none, fecha_publicacion := none,
    fecha_registro_participantes := none, fecha_consultas := none,
    fecha_observaciones := none, fecha_integracion_bases := none,
    fecha_presentacion_propuestas := none, fecha_buena_pro := none,
    url_ficha := none, actualizado_en := 5, fuente := "ocds" }

/-- Concrete instance of C7: a row written at T = 5 is inside a 12-hour
window queried at now = 6. -/
theorem C7_witness :
    ([filaFresca].filter (pasaFiltros none none none none true 12 6)).length ≤ 50
    ∧ (filaFresca ∈ buscar [filaFresca] none none none none 50 true 12 6 ↔
        filaFresca ∈ [filaFresca] ∧ (6 : Int) - filaFresca.actualizado_en ≤ 12) :=
  ⟨by decide, C7_ventana_frescura [filaFresca] 50 12 6 filaFresca (by decide)⟩

/-- Row published 31/01/2026 (a date EARLIER than 01/02/2026, but a
string that compares LARGER). -/
def filaEne : Row :=
  { nomenclatura := "P-ENE", entidad := none, descripcion := none, tipo_objeto := none,
    tipo_procedimiento := none, departamento := none, valor_referencial := 0,
    moneda := "PEN", estado := none, fecha_publicacion := some "31/01/2026",
    fecha_registro_participantes := none, fecha_consultas := none,
    fecha_observaciones := none, fecha_integracion_bases := none,
    fecha_presentacion_propuestas := none, fecha_buena_pro := none,
    url_ficha := none, actualizado_en := 0, fuente := "ocds" }

/-- Row published 01/02/2026. -/
def filaFeb : Row :=
  { nomenclatura := "P-FEB", entidad := none, descripcion := none, tipo_objeto := none,
    tipo_procedimiento := none, departamento := none, valor_referencial := 0,
    moneda := "PEN", estado := none, fecha_publicacion := some "01/02/2026",
    fecha_registro_participantes := none, fecha_consultas := none,
    fecha_observaciones := none, fecha_integracion_bases := none,
    fecha_presentacion_propuestas := none, fecha_buena_pro := none,
    url_ficha := none, actualizado_en := 0, fuente := "ocds" }

/-- C9 as stated is false: `fecha_publicacion` is stored as DD/MM/YYYY
TEXT, so `ORDER BY fecha_publicacion DESC` sorts lexicographically, not
chronologically.  On two rows published 31/01/2026 and 01/02/2026, the
query returns the 31/01 row FIRST although its publication date is the
EARLIER one — the first result's date is earlier than the second's,
violating the claimed descending date order. -/
theorem C9_counterexample :
    buscar [filaEne, filaFeb] none none none none 50 false 0 0 = [filaEne, filaFeb]
    ∧ parseFecha ("31/01/2026".data) = some ⟨2026, 1, 31⟩
    ∧ parseFecha ("01/02/2026".data) = some ⟨2026, 2, 1⟩
    ∧ rataDie ⟨2026, 1, 31⟩ < rataDie ⟨2026, 2, 1⟩ := by
  decide

/-- C9 amended: query results are sorted by `fecha_publicacion` descending
AS TEXT (byte-wise string comparison of the stored DD/MM/YYYY values, so
not calendar order), with NULL dates last and ties broken by
`actualizado_en` descending. -/
theorem C9_orden_texto (db : List Row) (dep tipo est texto : Option String)
    (limite : Nat) (frescos : Bool) (horas now : Int) :
    List.Sorted OrdenBuscar (buscar db dep tipo est texto limite frescos horas now) := by
  unfold buscar
  have h := List.sorted_insertionSort RowBefore
    (db.filter (pasaFiltros dep tipo est texto frescos horas now))
  have h2 : List.Sorted OrdenBuscar
      ((db.filter (pasaFiltros dep tipo est texto frescos horas now)).insertionSort RowBefore) :=
    h.imp fun hab => (rowBefore_iff_ordenBuscar _ _).mp hab
  exact List.Pairwise.sublist (List.take_sublist limite _) h2

/-- Concrete instance of C10: a record with an empty identifier is dropped
while a sole record with identifier A survives with its identifier intact. -/
theorem C10_witness :
    procIdA ∈ deduplicar_procesos [procSinId, procIdA]
    ∧ procIdA.nomenclatura ≠ none
    ∧ procIdA.nomenclatura ≠ some "" :=
  ⟨by decide,
    (C10_dedup_descarta_sin_id [procSinId, procIdA] procIdA (by decide)).1,
    (C10_dedup_descarta_sin_id [procSinId, procIdA] procIdA (by decide)).2⟩

end Seace
